import Mathlib

/-!
Shallow embedding of the pokemon-card-scanner scan pipeline and its
supporting algorithms, translated from the TypeScript sources:

* `src/src/services/ocrService.ts` — text parser (`parseCardInfo`) and
  authenticity scorer (`verifyCardAuthenticity`, `checkPokemonDatabase`);
* `src/src/hooks/useCardScanner.ts` — price normalizer helpers
  (`extractMarketPrice`, `getBestAvailablePrice`, `getTCGPlayerPrice`,
  `getEbayPrice`, `calculatePriceRange`) and the pipeline orchestrator
  (`scanCard`);
* `src/unnamed/part_003` (`utils/constants.ts`) — `ERROR_MESSAGES`.

Modelling conventions: JavaScript numbers are modelled as exact rationals
(`ℚ`); possibly-absent values (`undefined`/`null`) as `Option`; thrown
exceptions as `Except`; JS objects with dynamic string keys as association
lists.  Asynchronous collaborator calls are pure oracle functions packaged
in a `ScanEnv`.  JS truthiness of a number is `≠ 0`; of a string, `≠ ""`.
-/

namespace CardScanner

/-- JS whitespace test restricted to the ASCII range (sufficient for the
inputs modelled here): matches `\s` in the source regexes and the
characters removed by `String.prototype.trim`. -/
def isSpaceChar (c : Char) : Bool :=
  c = ' ' || c = '\t' || c = '\n' || c = '\r' || c = '\x0b' || c = '\x0c'

/-- `\w` of JS regexes: `[A-Za-z0-9_]`. -/
def isWordChar (c : Char) : Bool :=
  c.isAlpha || c.isDigit || c = '_'

/-- `\d` of JS regexes. -/
def isDigitChar (c : Char) : Bool := c.isDigit

/-- `.` of JS regexes (no `s` flag): any char except a line terminator. -/
def isDotChar (c : Char) : Bool := c != '\n' && c != '\r'

/-- `String.prototype.trim`, on the character-list level. -/
def jsTrimList (s : List Char) : List Char :=
  ((s.dropWhile isSpaceChar).reverse.dropWhile isSpaceChar).reverse

/-- `String.prototype.trim`. -/
def jsTrim (s : String) : String := ⟨jsTrimList s.data⟩

/-! ## Data model (`src/src/types/index.ts`) -/

/-- `CardInfo` from `types/index.ts` (the fields the pipeline reads;
optional fields beyond `setName` are never consulted by the modelled
code). -/
structure CardInfo where
  name : String
  setNumber : String
  hp : String
  type : String
  rarity : String
  fullText : String
  setName : Option String := none
  deriving Repr, DecidableEq

structure AuthenticityChecks where
  hasName : Bool
  hasSetNumber : Bool
  hasHP : Bool
  fontConsistency : Bool
  printQuality : Bool
  holoPattern : Bool
  deriving Repr, DecidableEq

structure AuthenticityResult where
  isAuthentic : Bool
  confidence : ℚ
  issues : List String
  checks : AuthenticityChecks
  deriving Repr, DecidableEq

/-- `PokemonCard.set` — only the field the pipeline reads. -/
structure CardSet where
  name : String
  deriving Repr, DecidableEq

structure CardImages where
  small : String
  large : String
  deriving Repr, DecidableEq

/-- `PokemonCard` from `types/index.ts`, restricted to the fields the
pipeline reads (`name`, `rarity`, `set.name`, `images.small`). -/
structure PokemonCard where
  name : String
  rarity : String
  set : CardSet
  images : CardImages
  deriving Repr, DecidableEq

/-- A price source as the normalizer sees it: a `source` tag plus a JS
object of numeric price fields, modelled as an association list (first
binding wins, as in a JS object there is at most one per key). -/
structure PriceSource where
  source : String
  prices : List (String × ℚ)
  deriving Repr, DecidableEq

/-- `CardPrices` from `types/index.ts` (the fields the normalizer and the
pipeline read). -/
structure CardPrices where
  cardName : String
  setNumber : String
  sources : List PriceSource
  averagePrice : Option ℚ := none
  gradedPrices : List (String × ℚ) := []
  deriving Repr, DecidableEq

/-- `ScanResult` from `types/index.ts`. -/
structure ScanResult where
  cardInfo : CardInfo
  validatedCard : Option PokemonCard
  authenticity : AuthenticityResult
  prices : Option CardPrices
  scanTime : String
  deriving Repr, DecidableEq

/-- `ImageData` from `types/index.ts` (`base64?: string | null`). -/
structure ImageData where
  uri : String
  base64 : Option String
  width : Nat
  height : Nat
  deriving Repr, DecidableEq

/-! ## Authenticity scorer (`src/src/services/ocrService.ts`, lines 210–261) -/

/-- The `checks` record computed at the top of `verifyCardAuthenticity`;
`!!s` on a string is `s ≠ ""`. -/
def computeChecks (cardInfo : CardInfo) : AuthenticityChecks :=
  { hasName := cardInfo.name != ""
    hasSetNumber := cardInfo.setNumber != ""
    hasHP := cardInfo.hp != ""
    fontConsistency := true
    printQuality := true
    holoPattern := true }

/-- `Object.values(checks)` in the object's insertion order. -/
def checksValues (c : AuthenticityChecks) : List Bool :=
  [c.hasName, c.hasSetNumber, c.hasHP, c.fontConsistency, c.printQuality, c.holoPattern]

/-- `verifyCardAuthenticity`, with the result of the awaited
`checkPokemonDatabase` call passed in as `isValidCard` (the call is pure,
so evaluating it before the short-circuit branches does not change the
returned value). -/
def verifyCardAuthenticityWith (isValidCard : Bool) (cardInfo : CardInfo) :
    AuthenticityResult :=
  let checks := computeChecks cardInfo
  if !checks.hasName || !checks.hasSetNumber then
    { isAuthentic := false
      confidence := 0.3
      issues := ["Missing essential card information"]
      checks := checks }
  else if !isValidCard then
    { isAuthentic := false
      confidence := 0.4
      issues := ["Card not found in official database"]
      checks := checks }
  else
    let passedChecks := ((checksValues checks).filter (fun b => b)).length
    let totalChecks := (checksValues checks).length
    let confidence : ℚ := (passedChecks : ℚ) / (totalChecks : ℚ)
    { isAuthentic := decide ((0.7 : ℚ) < confidence)
      confidence := confidence
      issues := []
      checks := checks }

/-- `checkPokemonDatabase` — the mock in the source returns `true`
unconditionally ("For now, return true for testing"). -/
def checkPokemonDatabase (_ : CardInfo) : Bool := true

/-- `verifyCardAuthenticity cardInfo` as the pipeline calls it. -/
def verifyCardAuthenticity (cardInfo : CardInfo) : AuthenticityResult :=
  verifyCardAuthenticityWith (checkPokemonDatabase cardInfo) cardInfo

/-! ## Price normalizer (`src/src/hooks/useCardScanner.ts`, lines 32–136) -/

/-- Field access `obj.prices.k` on a JS object: `Option`-valued lookup. -/
def jsLookup (m : List (String × ℚ)) (k : String) : Option ℚ :=
  (m.find? (fun p => p.1 = k)).map Prod.snd

/-- `'k' in obj.prices`. -/
def hasKey (m : List (String × ℚ)) (k : String) : Bool :=
  (m.find? (fun p => p.1 = k)).isSome

/-- A number value seen through JS truthiness: `0` (the only falsy
number representable in `ℚ`) becomes absent. -/
def truthy (a : Option ℚ) : Option ℚ :=
  match a with
  | some x => if x = 0 then none else some x
  | none => none

/-- `a || b` on possibly-absent JS numbers. -/
def jsOr (a b : Option ℚ) : Option ℚ :=
  match truthy a with
  | some x => some x
  | none => b

/-- `extractMarketPrice(source)`; the argument is `Option`al because
`getEbayPrice` may pass `undefined` (`if (!source || !source.prices)
return null`; `source.prices` is always an object on the `CardPrices`
values modelled here, so that half of the guard never fires). -/
def extractMarketPrice (src? : Option PriceSource) : Option ℚ :=
  match src? with
  | none => none
  | some src =>
    if src.source = "TCGPlayer" && hasKey src.prices "market" then
      jsLookup src.prices "market"
    else if src.source = "Card Kingdom" && hasKey src.prices "nm" then
      jsLookup src.prices "nm"
    else
      -- prices.market || prices.mid || prices.average || prices.nm || null
      jsOr (jsLookup src.prices "market")
        (jsOr (jsLookup src.prices "mid")
          (jsOr (jsLookup src.prices "average")
            (truthy (jsLookup src.prices "nm"))))

/-- The `prices` array accumulated by the source loop of
`getBestAvailablePrice`: `if (price && price > 0) prices.push(price)`. -/
def usableSourcePrices (sources : List PriceSource) : List ℚ :=
  sources.filterMap (fun s =>
    match extractMarketPrice (some s) with
    | some p => if p != 0 && 0 < p then some p else none
    | none => none)

/-- `getBestAvailablePrice(priceData)`. -/
def getBestAvailablePrice (priceData : Option CardPrices) : Option ℚ :=
  match priceData with
  | none => none
  | some pd =>
    if pd.sources.length = 0 then none
    else
      -- if (priceData.averagePrice && priceData.averagePrice > 0)
      match truthy pd.averagePrice with
      | some ap =>
        if 0 < ap then some ap
        else bestFromSources pd
      | none => bestFromSources pd
where
  bestFromSources (pd : CardPrices) : Option ℚ :=
    let prices := usableSourcePrices pd.sources
    if prices.length = 0 then none
    else some ((prices.foldl (· + ·) 0) / (prices.length : ℚ))

/-- `getTCGPlayerPrice(priceData)`; the trailing `|| null` mapping a
`0`/absent market field to `null` is `truthy`. -/
def getTCGPlayerPrice (priceData : Option CardPrices) : Option ℚ :=
  match priceData with
  | none => none
  | some pd =>
    match pd.sources.find? (fun s => s.source = "TCGPlayer") with
    | none => none
    | some s => truthy (jsLookup s.prices "market")

/-- `getEbayPrice(priceData)`. -/
def getEbayPrice (priceData : Option CardPrices) : Option ℚ :=
  match priceData with
  | none => none
  | some pd =>
    extractMarketPrice (pd.sources.find? (fun s => s.source != "TCGPlayer"))

/-- `Number(x.toFixed(2))` on a positive price, with JS numbers modelled
as exact rationals: round to two decimals, ties away from zero. -/
def round2 (x : ℚ) : ℚ :=
  ((Int.floor (x * 100 + 1 / 2) : ℤ) : ℚ) / 100

structure PriceRange where
  low : Option ℚ
  high : Option ℚ
  deriving Repr, DecidableEq

/-! ## Regex machinery for the parser's patterns

The parser uses four fixed regexes, compiled here by hand with the
backtracking (leftmost-first) semantics of the JS engine:

* `/(\w+.*?)\s+(?:HP\s*)?(\d+)\s*HP/i` and `/(\w+.*?)\s+HP\s*(\d+)/i`
  (the two HP alternatives, tried in that order per line);
* `/(\d+\/\d+)/` (set number, first occurrence in the full text);
* `/\b(Fire|Water|…|Colorless)\b/i` (type) and `/\bRare\b/i` (rarity).

A quantifier over a character class is modelled by the list of all
splits `taken ++ rest` of the input whose `taken` part satisfies the
class, enumerated in the engine's backtracking priority order (shortest
first for lazy, longest first for greedy); `List.findSome?` over that
list is exactly the engine's first-success search. -/

/-- All splits `(taken, rest)` of `s` with every char of `taken`
satisfying `p`, shortest `taken` first (the lazy order). -/
def prefixSplits (p : Char → Bool) : List Char → List (List Char × List Char)
  | [] => [([], [])]
  | c :: cs =>
    ([], c :: cs) ::
      (if p c then (prefixSplits p cs).map (fun t => (c :: t.1, t.2)) else [])

/-- Splits for a greedy `p*`: longest `taken` first. -/
def greedySplits (p : Char → Bool) (s : List Char) : List (List Char × List Char) :=
  (prefixSplits p s).reverse

/-- Splits for a greedy `p+`: longest first, at least one char taken. -/
def greedyPlusSplits (p : Char → Bool) (s : List Char) : List (List Char × List Char) :=
  ((prefixSplits p s).reverse).dropLast

/-- Case-insensitive `H`. -/
def isH (c : Char) : Bool := c = 'H' || c = 'h'

/-- Case-insensitive `P`. -/
def isP (c : Char) : Bool := c = 'P' || c = 'p'

/-- Positions reachable after the optional group `(?:HP\s*)?` starting at
`r`, in priority order: the greedy option (literal `HP`, then `\s*`
greedy) first, then skipping the group. -/
def optHPCandidates (r : List Char) : List (List Char) :=
  (match r with
   | h :: p :: rest =>
     if isH h && isP p then (greedySplits isSpaceChar rest).map (fun t => t.2) else []
   | _ => []) ++ [r]

/-- The tail `\s+(?:HP\s*)?(\d+)\s*HP` of the first HP regex, matched at
`r`; `g1` is the already-captured first group. Returns `(group1, group2)`. -/
def matchTailHP1 (g1 : List Char) (r : List Char) : Option (List Char × List Char) :=
  (greedyPlusSplits isSpaceChar r).findSome? fun sp =>
    (optHPCandidates sp.2).findSome? fun r2 =>
      (greedyPlusSplits isDigitChar r2).findSome? fun dg =>
        (greedySplits isSpaceChar dg.2).findSome? fun sq =>
          match sq.2 with
          | h :: p :: _ => if isH h && isP p then some (g1, dg.1) else none
          | _ => none

/-- The tail `\s+HP\s*(\d+)` of the second HP regex. -/
def matchTailHP2 (g1 : List Char) (r : List Char) : Option (List Char × List Char) :=
  (greedyPlusSplits isSpaceChar r).findSome? fun sp =>
    match sp.2 with
    | h :: p :: rest =>
      if isH h && isP p then
        (greedySplits isSpaceChar rest).findSome? fun sq =>
          (greedyPlusSplits isDigitChar sq.2).findSome? fun dg => some (g1, dg.1)
      else none
    | _ => none

/-- One anchored attempt of `(\w+.*?)` followed by the given tail, at the
start of `s`: `\w+` greedy (outer, longest first), `.*?` lazy (inner,
shortest first). -/
def tryGroup1At (tail : List Char → List Char → Option (List Char × List Char))
    (s : List Char) : Option (List Char × List Char) :=
  (greedyPlusSplits isWordChar s).findSome? fun w =>
    (prefixSplits isDotChar w.2).findSome? fun d =>
      tail (w.1 ++ d.1) d.2

/-- Leftmost-match search: try each start position left to right. -/
def leftmost (attempt : List Char → Option (List Char × List Char)) :
    List Char → Option (List Char × List Char)
  | [] => none
  | c :: cs =>
    match attempt (c :: cs) with
    | some r => some r
    | none => leftmost attempt cs

/-- `line.match(/(\w+.*?)\s+(?:HP\s*)?(\d+)\s*HP/i) ||
line.match(/(\w+.*?)\s+HP\s*(\d+)/i)`, returning the two capture groups. -/
def hpMatch (line : String) : Option (String × String) :=
  match leftmost (tryGroup1At matchTailHP1) line.data with
  | some (g1, g2) => some (⟨g1⟩, ⟨g2⟩)
  | none =>
    match leftmost (tryGroup1At matchTailHP2) line.data with
    | some (g1, g2) => some (⟨g1⟩, ⟨g2⟩)
    | none => none

/-- One anchored attempt of `(\d+\/\d+)` at the start of `s`. -/
def trySetNumberAt (s : List Char) : Option (List Char) :=
  (greedyPlusSplits isDigitChar s).findSome? fun d1 =>
    match d1.2 with
    | '/' :: rest =>
      (greedyPlusSplits isDigitChar rest).findSome? fun d2 =>
        some (d1.1 ++ '/' :: d2.1)
    | _ => none

/-- `text.match(/(\d+\/\d+)/)`: leftmost occurrence, capture group 1. -/
def matchSetNumber : List Char → Option (List Char)
  | [] => none
  | c :: cs =>
    match trySetNumberAt (c :: cs) with
    | some m => some m
    | none => matchSetNumber cs

/-- The alternation of the type regex, in source order. -/
def pokemonTypeAlternatives : List String :=
  ["Fire", "Water", "Grass", "Electric", "Psychic", "Fighting",
   "Dark", "Steel", "Fairy", "Dragon", "Normal", "Colorless"]

/-- Case-insensitive literal prefix match: the matched input chars (in
their original casing, as captured by a JS group) and the rest. -/
def ciPrefixMatch : List Char → List Char → Option (List Char × List Char)
  | [], s => some ([], s)
  | _ :: _, [] => none
  | p :: ps, c :: cs =>
    if c.toLower = p.toLower then
      (ciPrefixMatch ps cs).map (fun t => (c :: t.1, t.2))
    else none

/-- One attempt of `(Fire|…|Colorless)\b` at the start of `s` (the `\b`
before the group is checked by the caller). -/
def tryTypeAt (s : List Char) : Option (List Char) :=
  pokemonTypeAlternatives.findSome? fun alt =>
    match ciPrefixMatch alt.data s with
    | some (m, rest) =>
      match rest with
      | [] => some m
      | c :: _ => if isWordChar c then none else some m
    | none => none

/-- Leftmost search for `\b(Fire|…)\b/i`; `prevW` records whether the
previous character was a word character (for the leading `\b`). -/
def matchTypeAux : Bool → List Char → Option (List Char)
  | _, [] => none
  | prevW, c :: cs =>
    match (if prevW then none else tryTypeAt (c :: cs)) with
    | some m => some m
    | none => matchTypeAux (isWordChar c) cs

/-- `text.match(/\b(Fire|…|Colorless)\b/i)`, capture group 1. -/
def matchType (text : String) : Option String :=
  (matchTypeAux false text.data).map (fun m => ⟨m⟩)

/-- `/\bRare\b/i.test`-like search used for rarity (via `text.match`). -/
def hasRareWord : Bool → List Char → Bool
  | _, [] => false
  | prevW, c :: cs =>
    (if prevW then false
     else
       match ciPrefixMatch ['R', 'a', 'r', 'e'] (c :: cs) with
       | some (_, rest) =>
         match rest with
         | [] => true
         | r :: _ => !isWordChar r
       | none => false)
    || hasRareWord (isWordChar c) cs

/-! ## Text parser (`src/src/services/ocrService.ts`, lines 146–208) -/

/-- `text.split('\n')` on the character-list level. -/
def splitNL : List Char → List (List Char)
  | [] => [[]]
  | c :: cs =>
    let r := splitNL cs
    if c = '\n' then [] :: r
    else
      match r with
      | h :: t => (c :: h) :: t
      | [] => [[c]]

/-- `text.split('\n').map(l => l.trim()).filter(l => l)`. -/
def splitLines (text : String) : List String :=
  ((splitNL text.data).map (fun l => (⟨jsTrimList l⟩ : String))).filter
    (fun l => l != "")

/-- The name/HP loop of `parseCardInfo`: scan lines top-down; on the first
`hpMatch` assign `(match[1].trim(), match[2])` and break; otherwise, on
index 0 with the name still empty, remember the first line as the name. -/
def nameHPScan : List String → Nat → String → String × String
  | [], _, nm => (nm, "")
  | l :: ls, i, nm =>
    match hpMatch l with
    | some g => (jsTrim g.1, g.2)
    | none =>
      let nm' := if i = 0 && nm == "" then l else nm
      nameHPScan ls (i + 1) nm'

/-- The rarity-glyph cascade of `parseCardInfo`. -/
def parseRarity (text : String) : String :=
  if text.data.contains '★' || hasRareWord false text.data then "Rare"
  else if text.data.contains '◆' then "Uncommon"
  else if text.data.contains '●' then "Common"
  else ""

/-- `parseCardInfo(text)`. -/
def parseCardInfo (text : String) : CardInfo :=
  let nmhp := nameHPScan (splitLines text) 0 ""
  { name := nmhp.1
    setNumber :=
      match matchSetNumber text.data with
      | some m => (⟨m⟩ : String)
      | none => ""
    hp := nmhp.2
    type :=
      match matchType text with
      | some t => t
      | none => ""
    rarity := parseRarity text
    fullText := text
    setName := none }

/-- `calculatePriceRange(marketPrice)`; `!marketPrice || marketPrice <= 0`
collapses to `m ≤ 0` since `0` is the only falsy number. -/
def calculatePriceRange (marketPrice : Option ℚ) : PriceRange :=
  match marketPrice with
  | none => { low := none, high := none }
  | some m =>
    if m ≤ 0 then { low := none, high := none }
    else { low := some (round2 (m * 0.8)), high := some (round2 (m * 1.2)) }

/-! ## Pipeline orchestrator (`src/src/hooks/useCardScanner.ts`, lines 138–265) -/

/-- `ERROR_MESSAGES.OCR_FAILED` from `utils/constants.ts`. -/
def OCR_FAILED_MESSAGE : String :=
  "Could not read card information. Please ensure good lighting and focus."

/-- `ERROR_MESSAGES.API_ERROR` from `utils/constants.ts`. -/
def API_ERROR_MESSAGE : String :=
  "Service temporarily unavailable. Please try again later."

/-- The message set on the missing-base64 early return. -/
def IMAGE_MISSING_MESSAGE : String := "Image data is missing. Please try again."

/-- A thrown JS value: `some msg` is an `Error` with that message, `none`
a non-`Error` throw. -/
def JsError : Type := Option String

/-- `err instanceof Error ? err.message : ERROR_MESSAGES.API_ERROR`. -/
def caughtMessage (e : JsError) : String :=
  match e with
  | some m => m
  | none => API_ERROR_MESSAGE

/-- The external collaborators of one `scanCard` invocation, as pure
oracles (each stage runs at most one call, so a function of the call's
arguments captures the awaited results), plus the clock. -/
structure ScanEnv where
  ocr : String → Except JsError (Option CardInfo)
  validate : String → String → Except JsError (Option PokemonCard)
  pricing : CardInfo → Except JsError (Option CardPrices)
  now : String

/-- The `useState` cells of `useCardScanner` that `scanCard` mutates. -/
structure ScannerState where
  scanResult : Option ScanResult
  isScanning : Bool
  progress : ℚ
  currentStep : Nat
  error : Option String
  deriving Repr, DecidableEq

/-- The observable outcome of one `scanCard` invocation: the final hook
state, whether the OCR and pricing collaborators were invoked, and the
`ScanResult` constructed by this invocation (if any). -/
structure ScanOutcome where
  state : ScannerState
  ocrCalled : Bool
  pricingCalled : Bool
  constructed : Option ScanResult
  deriving Repr, DecidableEq

/-- The `finally` block: `setIsScanning(false); setProgress(0);
setCurrentStep(0)`. -/
def finallyReset (s : ScannerState) : ScannerState :=
  { s with isScanning := false, progress := 0, currentStep := 0 }

/-- `if (!imageData.base64)`: absent, `null` and `""` are falsy. -/
def base64Falsy : Option String → Bool
  | none => true
  | some b => b == ""

/-- `validatedCard?.name || cardInfo.name` and
`setName: validatedCard?.set.name` applied to `cardInfo` (the
`enrichedCardInfo` built before the pricing call). -/
def enrichCardInfo (cardInfo : CardInfo) (validatedCard : Option PokemonCard) :
    CardInfo :=
  { cardInfo with
    name :=
      match validatedCard with
      | some vc => if vc.name == "" then cardInfo.name else vc.name
      | none => cardInfo.name
    setName := validatedCard.map (fun vc => vc.set.name) }

instance : Inhabited CardInfo :=
  ⟨{ name := "", setNumber := "", hp := "", type := "", rarity := "",
     fullText := "", setName := none }⟩

/-- `scanCard(imageData)` run to completion against the oracles in `env`
from hook state `s₀`.  The `try`/`catch`/`finally` structure is encoded
path by path: every exit from the `try` block goes through
`finallyReset`; the missing-base64 guard returns before the `try`, so it
does not. -/
def scanCard (env : ScanEnv) (s₀ : ScannerState) (imageData : ImageData) :
    ScanOutcome :=
  if base64Falsy imageData.base64 then
    { state := { s₀ with error := some IMAGE_MISSING_MESSAGE }
      ocrCalled := false
      pricingCalled := false
      constructed := none }
  else
    let b := imageData.base64.getD ""
    let s₁ : ScannerState :=
      { s₀ with
        isScanning := true, error := none, scanResult := none,
        progress := 0, currentStep := 0 }
    -- Step 1: extract text from image
    let s₂ := { s₁ with currentStep := 0, progress := 0.25 }
    match env.ocr b with
    | Except.error e =>
      { state := finallyReset { s₂ with error := some (caughtMessage e) }
        ocrCalled := true, pricingCalled := false, constructed := none }
    | Except.ok ocrRes =>
      if ocrRes.elim true (fun ci => ci.name == "") then
        -- if (!cardInfo || !cardInfo.name) throw new Error(OCR_FAILED)
        { state := finallyReset { s₂ with error := some OCR_FAILED_MESSAGE }
          ocrCalled := true, pricingCalled := false, constructed := none }
      else
        let cardInfo := ocrRes.getD default
        -- Step 2: validate card with Pokemon API
        let s₃ := { s₂ with currentStep := 1, progress := 0.5 }
        match env.validate cardInfo.name cardInfo.setNumber with
        | Except.error e =>
          { state := finallyReset { s₃ with error := some (caughtMessage e) }
            ocrCalled := true, pricingCalled := false, constructed := none }
        | Except.ok validatedCard =>
          -- Step 3: verify authenticity
          let s₄ := { s₃ with currentStep := 2, progress := 0.75 }
          let authenticityResult := verifyCardAuthenticity cardInfo
          -- Step 4: get prices if authentic (inner try swallows throws)
          let s₅ := { s₄ with currentStep := 3, progress := 0.9 }
          let priceStep : Option CardPrices × Bool :=
            if authenticityResult.isAuthentic then
              match env.pricing (enrichCardInfo cardInfo validatedCard) with
              | Except.error _ => (none, true)
              | Except.ok pd => (pd, true)
            else (none, false)
          let s₆ := { s₅ with progress := 1 }
          let result : ScanResult :=
            { cardInfo := cardInfo
              validatedCard := validatedCard
              authenticity := authenticityResult
              prices := priceStep.1
              scanTime := env.now }
          let s₇ := { s₆ with scanResult := some result }
          { state := finallyReset s₇
            ocrCalled := true
            pricingCalled := priceStep.2
            constructed := some result }

/-! ## Spec-side definitions for refinement comparison

These follow the wording of spec §4.3, to be compared with the
code-derived normalizer above. -/

/-- Spec §4.3 step 2, word for word: "TCGPlayer-tagged → its `market`
field; CardKingdom-tagged → its `nm` (Near Mint) field; any other/generic
tagged source → the first present of `market`, `mid`, `average`, `nm`
inside its `prices` map, else skip". -/
def specPerTagExtract (src : PriceSource) : Option ℚ :=
  if src.source = "TCGPlayer" then jsLookup src.prices "market"
  else if src.source = "Card Kingdom" then jsLookup src.prices "nm"
  else
    (["market", "mid", "average", "nm"].filterMap
      (fun k => jsLookup src.prices k)).head?

/-- Spec §4.3 steps 1–3: use a positive `averagePrice` verbatim, else the
arithmetic mean of the per-tag extractions with zero/negative values
excluded, absent when no source yields a usable price. -/
def specBestPrice (pd : CardPrices) : Option ℚ :=
  match pd.averagePrice with
  | some ap => if 0 < ap then some ap else specFromSources pd
  | none => specFromSources pd
where
  specFromSources (pd : CardPrices) : Option ℚ :=
    let ps := (pd.sources.filterMap specPerTagExtract).filter
      (fun p => decide (0 < p))
    if ps = [] then none else some (ps.sum / (ps.length : ℚ))

/-- The per-source extraction rule as the code actually implements it
(the amended form of spec §4.3 step 2): a TCGPlayer tag uses `market`
only when that key is present, a Card Kingdom tag uses `nm` only when
that key is present, and every other case — including tagged sources
missing their dedicated key — takes the first key among `market`, `mid`,
`average`, `nm` that is present with a non-zero value. -/
def amendedPerTagExtract (src : PriceSource) : Option ℚ :=
  if src.source = "TCGPlayer" && hasKey src.prices "market" then
    jsLookup src.prices "market"
  else if src.source = "Card Kingdom" && hasKey src.prices "nm" then
    jsLookup src.prices "nm"
  else
    (["market", "mid", "average", "nm"].filterMap
      (fun k => truthy (jsLookup src.prices k))).head?

/-- The amended best-available-price policy: absent on an empty source
list; a positive `averagePrice` verbatim; else the mean of the amended
per-tag extractions, keeping only strictly positive values, absent when
none survive. -/
def amendedBestPrice (pd : CardPrices) : Option ℚ :=
  if pd.sources = [] then none
  else
    match pd.averagePrice with
    | some ap => if 0 < ap then some ap else amendedFromSources pd
    | none => amendedFromSources pd
where
  amendedFromSources (pd : CardPrices) : Option ℚ :=
    let ps := (pd.sources.filterMap amendedPerTagExtract).filter
      (fun p => decide (0 < p))
    if ps = [] then none else some (ps.sum / (ps.length : ℚ))

/-- Case-insensitive string equality, for the amended type-vocabulary
claim. -/
def ciEqStr (a b : String) : Bool :=
  a.data.map Char.toLower == b.data.map Char.toLower

/-! ## Concrete fixtures used by the pipeline theorems -/

/-- A fully-populated OCR result (name, set number and HP all present). -/
def cardInfoPikachu : CardInfo :=
  { name := "Pikachu", setNumber := "25/102", hp := "60", type := "Electric",
    rarity := "Rare", fullText := "Pikachu 60 HP", setName := none }

/-- A pricing answer with a TCGPlayer source and a precomputed average. -/
def pdDemo : CardPrices :=
  { cardName := "Pikachu", setNumber := "25/102",
    sources := [{ source := "TCGPlayer", prices := [("market", 10)] }],
    averagePrice := some 12, gradedPrices := [] }

/-- Oracles for a scan whose validation stage misses (returns `null`)
while OCR and pricing succeed. -/
def envValidationMiss : ScanEnv :=
  { ocr := fun _ => Except.ok (some cardInfoPikachu)
    validate := fun _ _ => Except.ok none
    pricing := fun _ => Except.ok (some pdDemo)
    now := "2024-01-01T00:00:00.000Z" }

/-- The hook's initial state. -/
def idleState : ScannerState :=
  { scanResult := none, isScanning := false, progress := 0, currentStep := 0,
    error := none }

/-- An image with base64 data present. -/
def imgDemo : ImageData :=
  { uri := "file:///card.jpg", base64 := some "QUJD", width := 3, height := 4 }

/-- The `ScanResult` that `envValidationMiss` produces. -/
def scanResultDemo : ScanResult :=
  { cardInfo := cardInfoPikachu, validatedCard := none,
    authenticity :=
      { isAuthentic := true, confidence := 1, issues := [],
        checks := computeChecks cardInfoPikachu }
    prices := some pdDemo, scanTime := "2024-01-01T00:00:00.000Z" }

/-- An image without base64 data. -/
def imgNoBase64 : ImageData :=
  { uri := "file:///card.jpg", base64 := none, width := 3, height := 4 }

/-- Oracles whose OCR stage yields no result. -/
def envOcrMiss : ScanEnv :=
  { ocr := fun _ => Except.ok none
    validate := fun _ _ => Except.ok none
    pricing := fun _ => Except.ok none
    now := "2024-01-01T00:00:00.000Z" }

/-- Oracles whose pricing stage throws. -/
def envPricingThrows : ScanEnv :=
  { ocr := fun _ => Except.ok (some cardInfoPikachu)
    validate := fun _ _ => Except.ok none
    pricing := fun _ => Except.error (some "network down")
    now := "2024-01-01T00:00:00.000Z" }

/-- `averagePrice` present and positive but `sources` empty — the input
separating the code from spec claim C2. -/
def pdEmptySources : CardPrices :=
  { cardName := "Pikachu", setNumber := "25/102", sources := [],
    averagePrice := some (25 / 2), gradedPrices := [] }

/-- A generic source whose `market` key is present with value `0` — the
input separating the code's `||`-chain from the spec's
"first present" extraction rule. -/
def pdZeroMarket : CardPrices :=
  { cardName := "Pikachu", setNumber := "25/102",
    sources := [{ source := "OtherShop", prices := [("market", 0), ("mid", 5)] }],
    averagePrice := none, gradedPrices := [] }

/-- The worked example of spec §8: TCGPlayer market 10 and Card Kingdom
nm 14, no precomputed average. -/
def pdExample : CardPrices :=
  { cardName := "Pikachu", setNumber := "25/102",
    sources := [{ source := "TCGPlayer", prices := [("market", 10)] },
                { source := "Card Kingdom", prices := [("nm", 14)] }],
    averagePrice := none, gradedPrices := [] }

/-! ## Helper lemmas -/

/-- The JS `||`-chain over the four generic price keys picks the first
present-and-non-zero value. -/
theorem jsOr_chain (a b c d : Option ℚ) :
    jsOr a (jsOr b (jsOr c (truthy d))) =
      ([a, b, c, d].filterMap truthy).head? := by
  rcases ha : truthy a with _ | va <;>
    rcases hb : truthy b with _ | vb <;>
      rcases hc : truthy c with _ | vc <;>
        rcases hd : truthy d with _ | vd <;>
          simp [jsOr, ha, hb, hc, hd]

/-- The amended per-tag rule is exactly the code's `extractMarketPrice`. -/
theorem amendedPerTagExtract_eq (src : PriceSource) :
    amendedPerTagExtract src = extractMarketPrice (some src) := by
  have hmap : (["market", "mid", "average", "nm"].filterMap
      (fun k => truthy (jsLookup src.prices k))) =
      [jsLookup src.prices "market", jsLookup src.prices "mid",
       jsLookup src.prices "average", jsLookup src.prices "nm"].filterMap truthy := by
    simp [List.filterMap]
  rw [amendedPerTagExtract, extractMarketPrice, hmap, ← jsOr_chain]

/-- The source loop of `getBestAvailablePrice` keeps exactly the strictly
positive amended extractions. -/
theorem usableSourcePrices_eq (ss : List PriceSource) :
    usableSourcePrices ss =
      (ss.filterMap amendedPerTagExtract).filter (fun p => decide (0 < p)) := by
  unfold usableSourcePrices
  induction ss with
  | nil => rfl
  | cons s ss ih =>
    rcases h : extractMarketPrice (some s) with _ | p
    · simp only [List.filterMap_cons, amendedPerTagExtract_eq, h]
      exact ih
    · by_cases hp : 0 < p
      · have h1 : (p != 0 && decide (0 < p)) = true := by
          simp [hp, ne_of_gt hp]
        simp only [List.filterMap_cons, amendedPerTagExtract_eq, h, h1, if_true,
          List.filter_cons]
        have h2 : decide (0 < p) = true := by simp [hp]
        rw [h2, ih]
        simp
      · have h1 : (p != 0 && decide (0 < p)) = false := by
          simp [hp]
        simp only [List.filterMap_cons, amendedPerTagExtract_eq, h, h1,
          Bool.false_eq_true, if_false, List.filter_cons]
        have h2 : decide (0 < p) = false := by simp [hp]
        rw [h2, ih]
        simp

/-- `Array.prototype.reduce((sum, p) => sum + p, 0)` is the list sum. -/
theorem foldl_add (l : List ℚ) : ∀ a : ℚ, l.foldl (· + ·) a = a + l.sum := by
  induction l with
  | nil => intro a; simp
  | cons x xs ih =>
    intro a
    rw [List.foldl_cons, ih, List.sum_cons]
    ring

/-- Every price the source loop keeps is strictly positive. -/
theorem mem_usableSourcePrices_pos (ss : List PriceSource) (p : ℚ)
    (h : p ∈ usableSourcePrices ss) : 0 < p := by
  rw [usableSourcePrices_eq] at h
  have := List.of_mem_filter h
  simpa using this

/-- A mean produced by the source loop is strictly positive. -/
theorem bestFromSources_pos (pd : CardPrices) (m : ℚ)
    (h : getBestAvailablePrice.bestFromSources pd = some m) : 0 < m := by
  unfold getBestAvailablePrice.bestFromSources at h
  by_cases hlen : (usableSourcePrices pd.sources).length = 0
  · simp [hlen] at h
  · simp only [hlen, if_false] at h
    have hne : usableSourcePrices pd.sources ≠ [] := by
      simpa [List.length_eq_zero] using hlen
    have hsum : 0 < (usableSourcePrices pd.sources).sum :=
      List.sum_pos _ (fun x hx => mem_usableSourcePrices_pos _ x hx) hne
    have hlenpos : (0 : ℚ) < ((usableSourcePrices pd.sources).length : ℚ) := by
      have : 0 < (usableSourcePrices pd.sources).length := Nat.pos_of_ne_zero hlen
      exact_mod_cast this
    have hm : m = (usableSourcePrices pd.sources).foldl (· + ·) 0 /
        ((usableSourcePrices pd.sources).length : ℚ) :=
      (Option.some_injective _ h).symm
    rw [hm, foldl_add, zero_add]
    exact div_pos hsum hlenpos

/-- Whenever `getBestAvailablePrice` yields a price it is strictly
positive. -/
theorem bestPrice_pos (pd : CardPrices) (m : ℚ)
    (h : getBestAvailablePrice (some pd) = some m) : 0 < m := by
  unfold getBestAvailablePrice at h
  by_cases hlen : pd.sources.length = 0
  · simp [hlen] at h
  · simp only [hlen, if_false] at h
    rcases havg : truthy pd.averagePrice with _ | ap
    · rw [havg] at h
      exact bestFromSources_pos pd m h
    · rw [havg] at h
      by_cases hpos : 0 < ap
      · simp only [hpos, if_true] at h
        cases h
        exact hpos
      · simp only [hpos, if_false] at h
        exact bestFromSources_pos pd m h

/-- The code's best-available price agrees with the amended policy. -/
theorem getBestAvailablePrice_eq_amended (pd : CardPrices) :
    getBestAvailablePrice (some pd) = amendedBestPrice pd := by
  have hfs : getBestAvailablePrice.bestFromSources pd =
      amendedBestPrice.amendedFromSources pd := by
    unfold getBestAvailablePrice.bestFromSources amendedBestPrice.amendedFromSources
    simp only [usableSourcePrices_eq, foldl_add, zero_add, List.length_eq_zero]
  unfold getBestAvailablePrice amendedBestPrice
  dsimp only
  rw [hfs]
  by_cases hlen : pd.sources.length = 0
  · have : pd.sources = [] := List.length_eq_zero.mp hlen
    simp [hlen, this]
  · have hne : ¬pd.sources = [] := by
      simpa [List.length_eq_zero] using hlen
    rcases havg : pd.averagePrice with _ | ap
    · simp [hlen, hne, havg, truthy]
    · by_cases h0 : ap = 0
      · simp [hlen, hne, havg, truthy, h0]
      · by_cases hpos : 0 < ap
        · simp [hlen, hne, havg, truthy, h0, hpos]
        · simp [hlen, hne, havg, truthy, h0, hpos]

/-- The band the claim describes: `round2(0.8·m)`/`round2(1.2·m)` when a
price is present, both absent otherwise. -/
def bandOf (m? : Option ℚ) : PriceRange :=
  match m? with
  | none => { low := none, high := none }
  | some m => { low := some (round2 (m * 0.8)), high := some (round2 (m * 1.2)) }

/-- The ±20% band holds at any price that is positive when present. -/
theorem calculatePriceRange_band (m? : Option ℚ)
    (hpos : ∀ m, m? = some m → 0 < m) :
    calculatePriceRange m? = bandOf m? := by
  rcases m? with _ | m
  · rfl
  · have h := hpos m rfl
    simp [calculatePriceRange, bandOf, not_le.mpr h]

/-- First match wins in the name/HP loop, whatever index and accumulator
it starts from. -/
theorem nameHPScan_first_match (pre : List String) (l : String)
    (post : List String) (g : String × String)
    (hpre : ∀ x ∈ pre, hpMatch x = none) (hl : hpMatch l = some g) :
    ∀ (i : Nat) (nm : String),
      nameHPScan (pre ++ l :: post) i nm = (jsTrim g.1, g.2) := by
  induction pre with
  | nil => intro i nm; simp [nameHPScan, hl]
  | cons x xs ih =>
    intro i nm
    have hx : hpMatch x = none := hpre x (List.mem_cons_self x xs)
    have hxs : ∀ y ∈ xs, hpMatch y = none := fun y hy =>
      hpre y (List.mem_cons_of_mem x hy)
    simp only [List.cons_append, nameHPScan, hx]
    exact ih hxs _ _

/-- A case-insensitive prefix match captures, up to case, the pattern. -/
theorem ciPrefixMatch_toLower (p : List Char) :
    ∀ (s m r : List Char), ciPrefixMatch p s = some (m, r) →
      m.map Char.toLower = p.map Char.toLower := by
  induction p with
  | nil =>
    intro s m r h
    simp [ciPrefixMatch] at h
    simp_all
  | cons hd tl ih =>
    intro s m r h
    cases s with
    | nil => simp [ciPrefixMatch] at h
    | cons c cs =>
      by_cases hc : c.toLower = hd.toLower
      · simp only [ciPrefixMatch, hc, if_true] at h
        rcases hrec : ciPrefixMatch tl cs with _ | ⟨m', r'⟩
        · rw [hrec] at h; simp at h
        · rw [hrec] at h
          simp at h
          obtain ⟨hm, hr⟩ := h
          subst hm
          simp [List.map_cons, hc, ih cs m' r' hrec]
      · simp [ciPrefixMatch, hc] at h

/-- An alternation attempt only ever captures one of the twelve type
words, up to case. -/
theorem tryTypeAt_mem (s m : List Char) (h : tryTypeAt s = some m) :
    ∃ alt ∈ pokemonTypeAlternatives,
      m.map Char.toLower = alt.data.map Char.toLower := by
  obtain ⟨alt, halt, hf⟩ := List.exists_of_findSome?_eq_some h
  refine ⟨alt, halt, ?_⟩
  rcases hcase : ciPrefixMatch alt.data s with _ | ⟨mm, rest⟩
  · rw [hcase] at hf; simp at hf
  · rw [hcase] at hf
    have hlow := ciPrefixMatch_toLower alt.data s mm rest hcase
    rcases rest with _ | ⟨c, rest'⟩
    · simp at hf; subst hf; exact hlow
    · by_cases hw : isWordChar c
      · simp [hw] at hf
      · simp [hw] at hf; subst hf; exact hlow

/-- The leftmost type search only ever captures one of the twelve type
words, up to case. -/
theorem matchTypeAux_mem : ∀ (s : List Char) (prevW : Bool) (m : List Char),
    matchTypeAux prevW s = some m →
    ∃ alt ∈ pokemonTypeAlternatives,
      m.map Char.toLower = alt.data.map Char.toLower := by
  intro s
  induction s with
  | nil => intro prevW m h; cases prevW <;> simp [matchTypeAux] at h
  | cons c cs ih =>
    intro prevW m h
    rw [matchTypeAux] at h
    by_cases hw : prevW
    · simp only [hw, if_true] at h
      exact ih _ _ h
    · simp only [hw, if_false] at h
      rcases htry : tryTypeAt (c :: cs) with _ | mm
      · rw [htry] at h
        exact ih _ _ h
      · rw [htry] at h
        cases h
        exact tryTypeAt_mem _ _ htry

/-! ## Claim theorems -/

/-- C1: the claim says a scan whose validation returns null runs the
authenticity stage with `foundInDatabase = false`, yielding
`isAuthentic = false` at confidence 0.4, never invoking pricing and
leaving `ScanResult.prices` null.  The code does the opposite: the
pipeline passes only `cardInfo` to `verifyCardAuthenticity`, whose
internal `checkPokemonDatabase` mock returns `true` unconditionally, so
with name and set number present the scan is judged authentic at
confidence 1, the pricing collaborator is invoked, and the final
`ScanResult.prices` carries the fetched prices. -/
theorem c1_validation_miss_still_prices :
    (scanCard envValidationMiss idleState imgDemo).pricingCalled = true ∧
    ∃ r, (scanCard envValidationMiss idleState imgDemo).constructed = some r ∧
      r.validatedCard = none ∧
      r.authenticity.isAuthentic = true ∧
      r.authenticity.confidence = 1 ∧
      r.prices = some pdDemo := by
  have hconf : verifyCardAuthenticity cardInfoPikachu =
      { isAuthentic := true, confidence := 1, issues := [],
        checks := computeChecks cardInfoPikachu } := by
    simp [verifyCardAuthenticity, verifyCardAuthenticityWith, checkPokemonDatabase,
      computeChecks, checksValues, cardInfoPikachu]
    norm_num
  have hname : (cardInfoPikachu.name == "") = false := by decide
  have hcalled :
      (scanCard envValidationMiss idleState imgDemo).pricingCalled = true := by
    simp [scanCard, envValidationMiss, idleState, imgDemo, base64Falsy, hconf,
      finallyReset, hname]
  have hcons : (scanCard envValidationMiss idleState imgDemo).constructed =
      some scanResultDemo := by
    simp [scanCard, envValidationMiss, idleState, imgDemo, base64Falsy, hconf,
      finallyReset, hname, scanResultDemo]
  exact ⟨hcalled, scanResultDemo, hcons, rfl, rfl, rfl, rfl⟩

/-- C2 counterexample: with a positive `averagePrice` but an empty
`sources` list the code returns `null`, not the average — the claim's
"regardless of the contents of the sources list (including an empty
sources list)" fails. -/
theorem c2_counterexample :
    pdEmptySources.averagePrice = some ((25 : ℚ) / 2) ∧
    (0 : ℚ) < 25 / 2 ∧
    getBestAvailablePrice (some pdEmptySources) = none ∧
    getBestAvailablePrice (some pdEmptySources) ≠ some ((25 : ℚ) / 2) := by
  refine ⟨rfl, by norm_num, ?_, ?_⟩ <;>
    simp [getBestAvailablePrice, pdEmptySources]

/-- C2 amended: for every `CardPrices` whose `averagePrice` is present
and strictly positive *and whose sources list is non-empty*, the
best-available price is that average verbatim, regardless of the
sources' contents. -/
theorem c2_average_price_verbatim (pd : CardPrices) (ap : ℚ)
    (hap : pd.averagePrice = some ap) (hpos : 0 < ap)
    (hne : pd.sources ≠ []) :
    getBestAvailablePrice (some pd) = some ap := by
  have hlen : pd.sources.length ≠ 0 := by
    simpa [List.length_eq_zero] using hne
  have hne0 : ap ≠ 0 := ne_of_gt hpos
  simp [getBestAvailablePrice, hap, truthy, hlen, hne0, hpos]

/-- C2 witness: a concrete non-empty source list with average 12.5. -/
theorem c2_witness :
    getBestAvailablePrice (some
      { cardName := "Pikachu", setNumber := "25/102",
        sources := [{ source := "TCGPlayer", prices := [("market", 10)] }],
        averagePrice := some ((25 : ℚ) / 2), gradedPrices := [] }) =
      some ((25 : ℚ) / 2) :=
  c2_average_price_verbatim _ _ rfl (by norm_num) (by simp)

/-- C3 counterexample: a generic source with `market: 0, mid: 5`.  Under
the claim's extraction rule ("first present of market, mid, average,
nm", zero excluded afterwards) the best price is absent; the code's
`||`-chain skips the zero `market` and returns 5. -/
theorem c3_counterexample :
    specBestPrice pdZeroMarket = none ∧
    getBestAvailablePrice (some pdZeroMarket) = some 5 := by
  constructor
  · simp [specBestPrice, specBestPrice.specFromSources, specPerTagExtract,
      jsLookup, pdZeroMarket, List.filterMap, List.find?]
  · simp [getBestAvailablePrice, getBestAvailablePrice.bestFromSources,
      usableSourcePrices, extractMarketPrice, hasKey, jsOr, truthy, jsLookup,
      pdZeroMarket, List.filterMap, List.find?]

/-- C3 amended: the best-available price follows the amended per-tag rule
(`amendedBestPrice`: dedicated keys only when present, generic fallback
takes the first present-and-non-zero of market/mid/average/nm, strictly
positive values averaged, absent when none or when the source list is
empty); any produced price is positive and the ±20% band is
`round2(0.8·m)`/`round2(1.2·m)` exactly, both absent without a price;
the claim's worked example (TCGPlayer market 10, Card Kingdom nm 14 →
12, 9.60, 14.40) stands. -/
theorem c3_best_price_amended (pd : CardPrices) :
    getBestAvailablePrice (some pd) = amendedBestPrice pd ∧
    (∀ m, getBestAvailablePrice (some pd) = some m → 0 < m) ∧
    calculatePriceRange (getBestAvailablePrice (some pd)) =
      bandOf (getBestAvailablePrice (some pd)) ∧
    (getBestAvailablePrice (some pdExample) = some 12 ∧
     calculatePriceRange (getBestAvailablePrice (some pdExample)) =
       { low := some ((96 : ℚ) / 10), high := some ((144 : ℚ) / 10) }) := by
  have hex : getBestAvailablePrice (some pdExample) = some 12 := by
    simp [getBestAvailablePrice, getBestAvailablePrice.bestFromSources,
      usableSourcePrices, extractMarketPrice, hasKey, jsOr, truthy, jsLookup,
      pdExample, List.filterMap, List.find?]
    norm_num
  refine ⟨getBestAvailablePrice_eq_amended pd, bestPrice_pos pd,
    calculatePriceRange_band _ (bestPrice_pos pd), hex, ?_⟩
  rw [hex]
  have hlow : Int.floor ((12 : ℚ) * 0.8 * 100 + 1 / 2) = 960 := by
    rw [Int.floor_eq_iff]
    norm_num
  have hhigh : Int.floor ((12 : ℚ) * 1.2 * 100 + 1 / 2) = 1440 := by
    rw [Int.floor_eq_iff]
    norm_num
  simp [calculatePriceRange, round2, hlow, hhigh]
  norm_num

/-- C3 witness: the worked example instantiates the positivity part. -/
theorem c3_witness :
    (0 : ℚ) < 12 ∧
    getBestAvailablePrice (some pdExample) = amendedBestPrice pdExample :=
  ⟨(c3_best_price_amended pdExample).2.1 12
      (c3_best_price_amended pdExample).2.2.2.1,
    (c3_best_price_amended pdExample).1⟩

/-- C4: from an idle entry state (every sequential invocation starts from
one: the hook initialises idle and every completed invocation below ends
idle), the invocation completes with `progress = 0`, `currentStep = 0`
and `isScanning = false` on every exit path — early input-validation
return, fatal OCR failure, top-level caught exception, or success. -/
theorem c4_state_reset (env : ScanEnv) (s₀ : ScannerState)
    (imageData : ImageData)
    (hp : s₀.progress = 0) (hc : s₀.currentStep = 0)
    (hs : s₀.isScanning = false) :
    (scanCard env s₀ imageData).state.progress = 0 ∧
    (scanCard env s₀ imageData).state.currentStep = 0 ∧
    (scanCard env s₀ imageData).state.isScanning = false := by
  unfold scanCard
  split
  · exact ⟨hp, hc, hs⟩
  · dsimp only
    split
    · simp [finallyReset]
    · split
      · simp [finallyReset]
      · split
        · simp [finallyReset]
        · split
          · simp [finallyReset]
          · simp [finallyReset]

/-- C4 witness: a successful concrete run ends idle. -/
theorem c4_witness :
    (scanCard envValidationMiss idleState imgDemo).state.progress = 0 ∧
    (scanCard envValidationMiss idleState imgDemo).state.currentStep = 0 ∧
    (scanCard envValidationMiss idleState imgDemo).state.isScanning = false :=
  c4_state_reset envValidationMiss idleState imgDemo rfl rfl rfl

/-- C5: a missing (or empty) base64 payload fails immediately with the
image-missing message, without calling the OCR collaborator and without
constructing a ScanResult; and an OCR result that is null or carries an
empty name aborts fatally with the OCR-failure message before any
ScanResult is constructed. -/
theorem c5_fatal_input_and_ocr_failure (env : ScanEnv) (s₀ : ScannerState)
    (imageData : ImageData) :
    (base64Falsy imageData.base64 = true →
      (scanCard env s₀ imageData).ocrCalled = false ∧
      (scanCard env s₀ imageData).constructed = none ∧
      (scanCard env s₀ imageData).state.error = some IMAGE_MISSING_MESSAGE) ∧
    (∀ b, imageData.base64 = some b → base64Falsy imageData.base64 = false →
      (env.ocr b = Except.ok none ∨
        (∃ ci, env.ocr b = Except.ok (some ci) ∧ ci.name = "")) →
      (scanCard env s₀ imageData).ocrCalled = true ∧
      (scanCard env s₀ imageData).constructed = none ∧
      (scanCard env s₀ imageData).state.scanResult = none ∧
      (scanCard env s₀ imageData).state.error = some OCR_FAILED_MESSAGE) := by
  constructor
  · intro hfalsy
    simp [scanCard, hfalsy]
  · intro b hb hfalsy hocr
    have hgetD : imageData.base64.getD "" = b := by simp [hb]
    rcases hocr with hocr | ⟨ci, hocr, hname⟩
    · simp [scanCard, hfalsy, hgetD, hocr, finallyReset]
    · simp [scanCard, hfalsy, hgetD, hocr, hname, finallyReset]

/-- C5 witness: a base64-less image and a null OCR answer, concretely. -/
theorem c5_witness :
    ((scanCard envOcrMiss idleState imgNoBase64).ocrCalled = false ∧
     (scanCard envOcrMiss idleState imgNoBase64).constructed = none ∧
     (scanCard envOcrMiss idleState imgNoBase64).state.error =
       some IMAGE_MISSING_MESSAGE) ∧
    ((scanCard envOcrMiss idleState imgDemo).ocrCalled = true ∧
     (scanCard envOcrMiss idleState imgDemo).constructed = none ∧
     (scanCard envOcrMiss idleState imgDemo).state.scanResult = none ∧
     (scanCard envOcrMiss idleState imgDemo).state.error =
       some OCR_FAILED_MESSAGE) :=
  ⟨(c5_fatal_input_and_ocr_failure envOcrMiss idleState imgNoBase64).1 rfl,
   (c5_fatal_input_and_ocr_failure envOcrMiss idleState imgDemo).2 "QUJD" rfl
     (by decide) (Or.inl rfl)⟩

/-- C6: when the scan reaches the pricing stage and the pricing
collaborator throws, the exception is swallowed: the scan completes with
a constructed ScanResult whose `prices` is null and no error. -/
theorem c6_pricing_throw_swallowed (env : ScanEnv) (s₀ : ScannerState)
    (imageData : ImageData) (b : String) (ci : CardInfo)
    (vd : Option PokemonCard) (e : JsError)
    (hb : imageData.base64 = some b) (hbne : b ≠ "")
    (hocr : env.ocr b = Except.ok (some ci)) (hname : ci.name ≠ "")
    (hauth : (verifyCardAuthenticity ci).isAuthentic = true)
    (hval : env.validate ci.name ci.setNumber = Except.ok vd)
    (hpr : env.pricing (enrichCardInfo ci vd) = Except.error e) :
    ∃ r, (scanCard env s₀ imageData).constructed = some r ∧
      r.prices = none ∧
      (scanCard env s₀ imageData).state.error = none ∧
      (scanCard env s₀ imageData).state.scanResult = some r := by
  have hfalsy : base64Falsy imageData.base64 = false := by
    simp [base64Falsy, hb, hbne]
  have hgetD : imageData.base64.getD "" = b := by simp [hb]
  refine ⟨{ cardInfo := ci, validatedCard := vd,
            authenticity := verifyCardAuthenticity ci, prices := none,
            scanTime := env.now }, ?_⟩
  simp [scanCard, hfalsy, hgetD, hocr, hname, hval, hauth, hpr, finallyReset]

/-- C6 witness: a concrete throwing pricing collaborator. -/
theorem c6_witness :
    ∃ r, (scanCard envPricingThrows idleState imgDemo).constructed = some r ∧
      r.prices = none ∧
      (scanCard envPricingThrows idleState imgDemo).state.error = none ∧
      (scanCard envPricingThrows idleState imgDemo).state.scanResult = some r :=
  c6_pricing_throw_swallowed envPricingThrows idleState imgDemo "QUJD"
    cardInfoPikachu none (some "network down") rfl (by decide) rfl (by decide)
    (by simp [verifyCardAuthenticity, verifyCardAuthenticityWith,
          checkPokemonDatabase, computeChecks, checksValues, cardInfoPikachu]
        norm_num)
    rfl rfl

/-- C7: with an empty name or set number the scorer returns exactly the
fixed record (`isAuthentic = false`, confidence 0.3, the single canned
issue, plus the computed checks), for every possible database answer —
so the database check and the linear check-count path are never
consulted. -/
theorem c7_missing_info_short_circuit (db : Bool) (ci : CardInfo)
    (h : ci.name = "" ∨ ci.setNumber = "") :
    verifyCardAuthenticityWith db ci =
      { isAuthentic := false
        confidence := 0.3
        issues := ["Missing essential card information"]
        checks := computeChecks ci } ∧
    verifyCardAuthenticity ci =
      { isAuthentic := false
        confidence := 0.3
        issues := ["Missing essential card information"]
        checks := computeChecks ci } := by
  have hb : (!(computeChecks ci).hasName || !(computeChecks ci).hasSetNumber) = true := by
    rcases h with h | h <;> simp [computeChecks, h]
  constructor <;>
    simp [verifyCardAuthenticity, verifyCardAuthenticityWith, hb]

/-- C7 witness: an empty name with a set number present. -/
theorem c7_witness :
    verifyCardAuthenticityWith true
      { name := "", setNumber := "25/102", hp := "60", type := "",
        rarity := "", fullText := "", setName := none } =
      { isAuthentic := false
        confidence := 0.3
        issues := ["Missing essential card information"]
        checks := computeChecks
          { name := "", setNumber := "25/102", hp := "60", type := "",
            rarity := "", fullText := "", setName := none } } :=
  (c7_missing_info_short_circuit true _ (Or.inl rfl)).1

/-- C8: whenever some parsed line matches the HP regexes, the first such
line (top-down) supplies `name` (its first capture group, trimmed) and
`hp` (its digit group), and no later line is consulted for name/HP. -/
theorem c8_first_hp_line_wins (text : String) (pre : List String) (l : String)
    (post : List String) (g : String × String)
    (hsplit : splitLines text = pre ++ l :: post)
    (hpre : ∀ x ∈ pre, hpMatch x = none)
    (hl : hpMatch l = some g) :
    (parseCardInfo text).name = jsTrim g.1 ∧ (parseCardInfo text).hp = g.2 := by
  have h := nameHPScan_first_match pre l post g hpre hl 0 ""
  constructor <;> simp [parseCardInfo, hsplit, h]

/-- C8 witness: a concrete two-line card text. -/
theorem c8_witness :
    (parseCardInfo "Pikachu 60 HP\n25/102").name = jsTrim "Pikachu" ∧
    (parseCardInfo "Pikachu 60 HP\n25/102").hp = "60" :=
  c8_first_hp_line_wins "Pikachu 60 HP\n25/102" [] "Pikachu 60 HP" ["25/102"]
    ("Pikachu", "60") (by decide) (by simp) (by decide)

/-- C9 counterexample: the type capture keeps the casing found in the
text, so on input "fire" the stored type is "fire", which is neither
empty nor a member of the capitalised vocabulary. -/
theorem c9_counterexample :
    (parseCardInfo "fire").type = "fire" ∧
    ¬((parseCardInfo "fire").type = "" ∨
      (parseCardInfo "fire").type ∈ pokemonTypeAlternatives) := by decide

/-- C9 amended: for every raw text the parsed `type` is either empty or
equal, case-insensitively, to one of the twelve vocabulary entries (the
stored value preserves the casing found in the text). -/
theorem c9_type_vocabulary (text : String) :
    (parseCardInfo text).type = "" ∨
      ∃ v ∈ pokemonTypeAlternatives,
        ciEqStr (parseCardInfo text).type v = true := by
  have htype : (parseCardInfo text).type =
      (match matchType text with | some t => t | none => "") := rfl
  rcases hm : matchType text with _ | t
  · left; rw [htype, hm]
  · right
    have hstep : ∃ m, matchTypeAux false text.data = some m ∧
        t = (⟨m⟩ : String) := by
      unfold matchType at hm
      rcases haux : matchTypeAux false text.data with _ | mm
      · rw [haux] at hm; simp at hm
      · rw [haux] at hm
        simp at hm
        exact ⟨mm, rfl, hm.symm⟩
    obtain ⟨m, hm', ht⟩ := hstep
    obtain ⟨alt, halt, heq⟩ := matchTypeAux_mem _ _ _ hm'
    refine ⟨alt, halt, ?_⟩
    rw [htype, hm, ht]
    simp [ciEqStr, heq]

/-- C10: with name and set number present and the database check passing,
the confidence is 5/6 with empty hp and 1 with hp present — at least 5/6
either way — so the verdict is authentic; conversely a non-authentic
verdict can only come from the two short-circuit branches, never from an
empty hp alone. -/
theorem c10_db_pass_confidence (db : Bool) (ci : CardInfo) :
    (ci.name ≠ "" → ci.setNumber ≠ "" → db = true →
      (verifyCardAuthenticityWith db ci).confidence =
        (if ci.hp = "" then (5 : ℚ) / 6 else 1) ∧
      (5 : ℚ) / 6 ≤ (verifyCardAuthenticityWith db ci).confidence ∧
      (verifyCardAuthenticityWith db ci).isAuthentic = true) ∧
    ((verifyCardAuthenticityWith db ci).isAuthentic = false →
      (ci.name = "" ∨ ci.setNumber = "") ∨ db = false) := by
  constructor
  · intro hn hs hdb
    subst hdb
    by_cases hhp : ci.hp = "" <;>
      simp [verifyCardAuthenticityWith, computeChecks, checksValues, hn, hs, hhp] <;>
      norm_num
  · intro hfalse
    by_cases hn : ci.name = ""
    · exact Or.inl (Or.inl hn)
    by_cases hs : ci.setNumber = ""
    · exact Or.inl (Or.inr hs)
    by_cases hdb : db = false
    · exact Or.inr hdb
    exfalso
    have hdb' : db = true := by
      cases db
      · exact absurd rfl hdb
      · rfl
    subst hdb'
    by_cases hhp : ci.hp = "" <;>
      simp [verifyCardAuthenticityWith, computeChecks, checksValues,
        hn, hs, hhp] at hfalse <;>
      norm_num at hfalse

/-- C10 witness: the fully-populated card at a passing database check. -/
theorem c10_witness :
    (verifyCardAuthenticityWith true cardInfoPikachu).confidence =
      (if cardInfoPikachu.hp = "" then (5 : ℚ) / 6 else 1) ∧
    (5 : ℚ) / 6 ≤ (verifyCardAuthenticityWith true cardInfoPikachu).confidence ∧
    (verifyCardAuthenticityWith true cardInfoPikachu).isAuthentic = true :=
  (c10_db_pass_confidence true cardInfoPikachu).1 (by decide) (by decide) rfl

end CardScanner
